import Mathlib

/-
Verification of the liquidation feature-aggregation engine of the
liqui-backtest repository.

The embedding models the batch feature-preparation pipeline:
  * `src/src/data_fetcher.py` - `prepare_data` (the canonical pipeline),
  * `src/src/strategies/counter-trade/data_preparation.py` - `prepare_strategy_data`,
  * `src/freqtrade_app/ft_user_data/strategies/src/liquidation_processor.py` -
    `process_liquidation_data` and `_timeframe_to_minutes`.

Modelling conventions:
  * timestamps are natural numbers counting minutes since the Unix epoch
    (all source timestamps are UTC instants; the epoch is day-aligned, so
    pandas `resample(..., label="left", closed="left")` bucket edges - which
    are aligned to day starts for every timeframe whose minute duration
    divides a day - coincide with multiples of the bucket width);
  * float sizes are modelled as rationals;
  * a pandas NaN cell is modelled as `Option.none`, `fillna(0)` as
    `Option.getD 0`;
  * a raised Python exception is modelled as `Except.error` / `Option.none`
    of the function's result.
-/

set_option maxRecDepth 4000

deriving instance DecidableEq for Except

namespace Liqui

/-- Side of a raw liquidation event (the `side` column, "BUY" / "SELL"). -/
inductive Side where
  | buy
  | sell
deriving DecidableEq

/-- A raw liquidation event: `(timestamp, side, cumulated_usd_size)`
(`liq_df` rows in `prepare_data`, `raw_liq_df` rows in
`process_liquidation_data`).  `ts` is in minutes since the epoch. -/
structure LiqEvent where
  ts : Nat
  side : Side
  size : Rat
deriving DecidableEq

/-- One OHLCV candle of the fetched candle grid (`ohlcv_df` row); `ts` is the
candle-open instant in minutes since the epoch. -/
structure Candle where
  ts : Nat
  opn : Rat
  hi : Rat
  lo : Rat
  cl : Rat
  vol : Rat
deriving DecidableEq

/-- One row of the merged output table of `prepare_data`: OHLCV plus the six
derived liquidation feature columns. -/
structure FeatureRow where
  ts : Nat
  opn : Rat
  hi : Rat
  lo : Rat
  cl : Rat
  vol : Rat
  liqBuySize : Rat
  liqSellSize : Rat
  liqBuyAgg : Rat
  liqSellAgg : Rat
  avgLiqBuy : Rat
  avgLiqSell : Rat
deriving DecidableEq

/-- Boolean test for `start <= t < stop`, the timestamp filters
`(df.index >= start_dt) & (df.index < end_dt)` used throughout the source. -/
def inRange (s e t : Nat) : Bool :=
  decide (s ≤ t) && decide (t < e)

/-- Trailing window of `w` positions ending at position `i` of a series,
clamped at the series start: the set of observations pandas
`rolling(window=w, min_periods=1)` sees at position `i`. -/
def windowSlice {α : Type} (s : List α) (w i : Nat) : List α :=
  (s.take (i + 1)).drop (i + 1 - w)

/-- Trailing rolling sum with `min_periods=1`
(`.rolling(window=w, min_periods=1).sum()` in all three pipeline variants). -/
def rollingSum (s : List Rat) (w : Nat) : List Rat :=
  List.ofFn (fun i : Fin s.length => (windowSlice s w i).sum)

/-- Trailing rolling mean with `min_periods=1` over a NaN-free series
(`.rolling(window=w, min_periods=1).mean()` in `process_liquidation_data`,
lines 140-150): at each position, the mean of all observations in the
trailing window, zeros included. -/
def rollingMean (s : List Rat) (w : Nat) : List Rat :=
  List.ofFn (fun i : Fin s.length =>
    (windowSlice s w i).sum / ((windowSlice s w i).length : Rat))

/-- The `.replace(0, np.nan)` step of `prepare_data` (line 297) and
`prepare_strategy_data` (line 174): zero cells become NaN (`none`). -/
def replaceZeroNan (s : List Rat) : List (Option Rat) :=
  s.map (fun x => if x = 0 then none else some x)

/-- Trailing rolling mean with `min_periods=1` over a series that may contain
NaN cells: pandas skips NaN observations in both the numerator and the count,
and yields NaN when the window holds no non-NaN observation. -/
def rollingMeanSkipNan (s : List (Option Rat)) (w : Nat) : List (Option Rat) :=
  List.ofFn (fun i : Fin s.length =>
    let obs := (windowSlice s w i).filterMap id
    if obs.length = 0 then none else some (obs.sum / (obs.length : Rat)))

/-- The `.fillna(0)` step: every NaN cell becomes `0.0`. -/
def fillna0 (s : List (Option Rat)) : List Rat :=
  s.map (fun o => o.getD 0)

/-- The long-window average column of `prepare_data` (lines 295-308) and
`prepare_strategy_data` (lines 172-183 followed by the final `fillna(0)`):
`series.replace(0, nan).rolling(window=w, min_periods=1).mean().fillna(0)`. -/
def avgLiqColumn (s : List Rat) (w : Nat) : List Rat :=
  fillna0 (rollingMeanSkipNan (replaceZeroNan s) w)

/-- Left edge of the resample bucket an instant falls into:
`resample(freq, label="left", closed="left")` puts an event at `ts` into the
bucket labelled by the largest multiple of the bucket width `delta` that is
at most `ts`. -/
def bucketOf (delta ts : Nat) : Nat :=
  delta * (ts / delta)

/-- Binned per-candle liquidation size for one side at candle-open `t`:
the value the join of the resampled-and-summed side series onto the candle
grid, followed by `fillna(0.0)`, leaves at a grid row with timestamp `t`
(`prepare_data` lines 255-272).  A candle whose bucket holds no event of the
side gets `0`. -/
def binnedSize (events : List LiqEvent) (sd : Side) (delta t : Nat) : Rat :=
  ((events.filter (fun e =>
    decide (e.side = sd) && decide (bucketOf delta e.ts = t))).map
      (fun e => e.size)).sum

/-- Sum of one side's binned column over the whole candle grid (given by its
list of candle-open timestamps). -/
def totalBinned (gridTs : List Nat) (events : List LiqEvent) (sd : Side)
    (delta : Nat) : Rat :=
  (gridTs.map (fun t => binnedSize events sd delta t)).sum

/-- Python `int(s)` on a decimal-digit string (the parses inside the
timeframe helpers): the numeric value when the string is a non-empty
all-digit sequence, `none` for the `ValueError` raised otherwise.
Timeframe strings are modelled as their character lists. -/
def pyInt (cs : List Char) : Option Nat :=
  if cs.isEmpty then none
  else if cs.all Char.isDigit then
    some (cs.foldl (fun acc c => acc * 10 + (c.toNat - 48)) 0)
  else none

/-- Timeframe-string parsing of `prepare_data` (`data_fetcher.py` lines
285-291): `tf_minutes` starts at `1` and is overwritten only when the string
ends in `m` / `h` / `d` (`timeframe.endswith(...)` then
`int(timeframe[:-1])`); `none` models the `ValueError` Python's `int()`
raises on a non-numeric prefix, and `some 1` is the silently kept initial
default for any other suffix. -/
def dfTfMinutes (tf : List Char) : Option Nat :=
  if tf.getLast? = some 'm' then (pyInt tf.dropLast).map (fun n => n)
  else if tf.getLast? = some 'h' then (pyInt tf.dropLast).map (fun n => n * 60)
  else if tf.getLast? = some 'd' then
    (pyInt tf.dropLast).map (fun n => n * 60 * 24)
  else some 1

/-- The `_timeframe_to_minutes` helper of `liquidation_processor.py` (lines
5-15): substring tests `"m" in timeframe_str` etc., then
`int(timeframe_str.replace("m", ""))` - removal of every occurrence of the
letter - and a raised `ValueError` (`Except.error`) for any other string. -/
def procTfMinutes (tf : List Char) : Except String Nat :=
  if tf.contains 'm' then
    match pyInt (tf.filter (fun c => !(c == 'm'))) with
    | some n => Except.ok n
    | none => Except.error "invalid literal for int"
  else if tf.contains 'h' then
    match pyInt (tf.filter (fun c => !(c == 'h'))) with
    | some n => Except.ok (n * 60)
    | none => Except.error "invalid literal for int"
  else if tf.contains 'd' then
    match pyInt (tf.filter (fun c => !(c == 'd'))) with
    | some n => Except.ok (n * 24 * 60)
    | none => Except.error "invalid literal for int"
  else Except.error "Unsupported timeframe string format"

/-- Short-window length used by `prepare_data` (`data_fetcher.py` line 275):
`window = liquidation_aggregation_minutes` - the raw minute figure, used
directly as the rolling candle count. -/
def dfAggWindow (aggMinutes : Nat) : Nat :=
  aggMinutes

/-- Short-window length used by `prepare_strategy_data`
(`data_preparation.py` line 129): `window = max(1, liquidation_aggregation_minutes)`. -/
def ctAggWindow (aggMinutes : Nat) : Nat :=
  max 1 aggMinutes

/-- Short-window length used by `process_liquidation_data`
(`liquidation_processor.py` line 121):
`max(1, int(agg_minutes / candle_duration_minutes))`. -/
def procAggWindow (aggMinutes tfMinutes : Nat) : Nat :=
  max 1 (aggMinutes / tfMinutes)

/-- Long-window length used by `prepare_data` (`data_fetcher.py` line 293):
`int((average_lookback_period_days * 24 * 60) / tf_minutes)` - truncating
division, with no floor at 1. -/
def dfLookbackPeriods (days tfMinutes : Nat) : Nat :=
  (days * 24 * 60) / tfMinutes

/-- Long-window length used by `prepare_strategy_data` (`data_preparation.py`
lines 163-166): `max(1, int(timedelta(days=days) / timedelta(minutes=tf)))`,
and by `process_liquidation_data` (line 126):
`max(1, int(days * 24 * 60 / tf_minutes))`. -/
def ctLookbackPeriods (days tfMinutes : Nat) : Nat :=
  max 1 ((days * 24 * 60) / tfMinutes)

/-- Modelled from the spec: the lookback-candle conversion the spec claims,
`max(1, round(lookback_days * 24 * 60 / timeframe_minutes))`, with a genuine
rounding of the exact quotient.  Used only for comparison with the code's
truncating conversion. -/
def specLookbackCandles (days tfMinutes : Nat) : Int :=
  max 1 (round ((days * 24 * 60 : Rat) / (tfMinutes : Rat)))

/-- Fetch start of `prepare_data` (`data_fetcher.py` line 232):
`fetch_start_dt = start_dt - timedelta(days=average_lookback_period_days)`,
expressed in minutes. -/
def fetchStart (startT days : Nat) : Int :=
  (startT : Int) - (days : Int) * 24 * 60

/-- Row assembly of the merged table: one `FeatureRow` per candle of the
grid, carrying the candle's OHLCV fields and the six derived column values at
the candle's position (the successive `join` / column assignments of
`prepare_data`). -/
def mkRows (grid : List Candle) (b s ab as vb vs : List Rat) :
    List FeatureRow :=
  List.ofFn (fun i : Fin grid.length =>
    { ts := (grid.get i).ts
      opn := (grid.get i).opn
      hi := (grid.get i).hi
      lo := (grid.get i).lo
      cl := (grid.get i).cl
      vol := (grid.get i).vol
      liqBuySize := b.getD i 0
      liqSellSize := s.getD i 0
      liqBuyAgg := ab.getD i 0
      liqSellAgg := as.getD i 0
      avgLiqBuy := vb.getD i 0
      avgLiqSell := vs.getD i 0 })

/-- The `prepare_data` pipeline of `src/src/data_fetcher.py` (lines 208-316),
applied to already-fetched data.  `grid` is the candle grid fetched from
`fetch_start_dt` on, `events` the fetched liquidation events, `tfMinutes`
the parsed minute duration of the timeframe (also the resample bucket
width), `startT`/`endT` the originally requested range in minutes, `aggMin`
the `liquidation_aggregation_minutes` argument and `days` the
`average_lookback_period_days` argument.

Branches of the source: empty OHLCV returns an empty frame; empty
liquidation data returns the grid with six zeroed columns, trimmed to
`[start_dt, end_dt)`; otherwise the events are binned per side, the short
rolling sum uses `window = liquidation_aggregation_minutes` (the raw minute
figure), the long average uses
`lookback_periods = int(days * 24 * 60 / tf_minutes)` with
`replace(0, nan) -> rolling(...).mean() -> fillna(0)`, and the merged frame
is trimmed to `[start_dt, end_dt)`. -/
def prepareData (grid : List Candle) (events : List LiqEvent)
    (tfMinutes startT endT aggMin days : Nat) : List FeatureRow :=
  if grid.isEmpty then []
  else if events.isEmpty then
    (mkRows grid [] [] [] [] [] []).filter (fun r => inRange startT endT r.ts)
  else
    let buyCol := grid.map (fun c => binnedSize events Side.buy tfMinutes c.ts)
    let sellCol :=
      grid.map (fun c => binnedSize events Side.sell tfMinutes c.ts)
    let aggBuy := rollingSum buyCol (dfAggWindow aggMin)
    let aggSell := rollingSum sellCol (dfAggWindow aggMin)
    let lookback := dfLookbackPeriods days tfMinutes
    let avgBuy := avgLiqColumn buyCol lookback
    let avgSell := avgLiqColumn sellCol lookback
    (mkRows grid buyCol sellCol aggBuy aggSell avgBuy avgSell).filter
      (fun r => inRange startT endT r.ts)

/-
Helper lemmas about the embedded operations.
-/

theorem getD_ofFn {α : Type} {n : Nat} (f : Fin n → α) (i : Nat) (h : i < n)
    (d : α) : (List.ofFn f).getD i d = f ⟨i, h⟩ := by
  have hn : i < (List.ofFn f).length := by
    simpa [List.length_ofFn] using h
  rw [List.getD_eq_get _ _ hn, List.get_ofFn]
  congr 1

theorem mem_windowSlice {α : Type} {s : List α} {w i : Nat} {x : α}
    (hx : x ∈ windowSlice s w i) : x ∈ s :=
  List.mem_of_mem_take (List.mem_of_mem_drop hx)

theorem list_sum_getD (l : List Rat) :
    l.sum = ∑ j ∈ Finset.range l.length, l.getD j 0 := by
  induction l with
  | nil => simp
  | cons x xs ih =>
      rw [List.sum_cons, List.length_cons, Finset.sum_range_succ']
      simp only [List.getD_cons_succ, List.getD_cons_zero]
      rw [← ih]
      exact add_comm x xs.sum

theorem list_sum_drop (l : List Rat) (a : Nat) :
    (l.drop a).sum = ∑ j ∈ Finset.Ico a l.length, l.getD j 0 := by
  rw [list_sum_getD, List.length_drop, Finset.sum_Ico_eq_sum_range]
  refine Finset.sum_congr rfl (fun j _ => ?_)
  rw [List.getD_eq_getElem?_getD, List.getD_eq_getElem?_getD, List.getElem?_drop]

theorem sum_windowSlice (s : List Rat) (w i : Nat) (hi : i < s.length) :
    (windowSlice s w i).sum = ∑ j ∈ Finset.Ico (i + 1 - w) (i + 1), s.getD j 0 := by
  rw [windowSlice, list_sum_drop, List.length_take]
  have hmin : (i + 1) ⊓ s.length = i + 1 := min_eq_left (by omega)
  rw [hmin]
  refine Finset.sum_congr rfl (fun j hj => ?_)
  rw [List.getD_eq_getElem?_getD, List.getD_eq_getElem?_getD, List.getElem?_take]
  have hji : j < i + 1 := (Finset.mem_Ico.mp hj).2
  simp [hji]

theorem getD_map_of_lt {α β : Type} (f : α → β) (l : List α) (i : Nat)
    (h : i < l.length) (d : β) (e : α) :
    (l.map f).getD i d = f (l.getD i e) := by
  rw [List.getD_eq_getElem?_getD, List.getD_eq_getElem?_getD, List.getElem?_map,
    List.getElem?_eq_getElem h]
  rfl

theorem windowSlice_replaceZeroNan (s : List Rat) (w i : Nat) :
    windowSlice (replaceZeroNan s) w i
      = (windowSlice s w i).map (fun x => if x = 0 then none else some x) := by
  simp [windowSlice, replaceZeroNan, List.map_take, List.map_drop]

theorem filterMap_id_replace (l : List Rat) :
    (l.map (fun x => if x = 0 then none else some x)).filterMap id
      = l.filter (fun x => decide (x ≠ 0)) := by
  induction l with
  | nil => rfl
  | cons x xs ih =>
      by_cases hx : x = 0 <;>
        simp [hx, List.filterMap_cons, List.filter_cons, ih]

theorem rollingMeanSkipNan_getD (s : List (Option Rat)) (w i : Nat)
    (h : i < s.length) (d : Option Rat) :
    (rollingMeanSkipNan s w).getD i d =
      if ((windowSlice s w i).filterMap id).length = 0 then none
      else some (((windowSlice s w i).filterMap id).sum /
        (((windowSlice s w i).filterMap id).length : Rat)) := by
  have := getD_ofFn (fun j : Fin s.length =>
    let obs := (windowSlice s w j).filterMap id
    if obs.length = 0 then none
    else some (obs.sum / (obs.length : Rat))) i h d
  simpa [rollingMeanSkipNan] using this

theorem length_replaceZeroNan (s : List Rat) :
    (replaceZeroNan s).length = s.length := by
  simp [replaceZeroNan]

theorem avgLiqColumn_getD (s : List Rat) (w i : Nat) (hi : i < s.length)
    (d : Rat) :
    (avgLiqColumn s w).getD i d =
      if ((windowSlice s w i).filter (fun x => decide (x ≠ 0))).length = 0 then 0
      else ((windowSlice s w i).filter (fun x => decide (x ≠ 0))).sum /
        (((windowSlice s w i).filter (fun x => decide (x ≠ 0))).length : Rat) := by
  have hi' : i < (replaceZeroNan s).length := by
    simpa [length_replaceZeroNan] using hi
  have hlen : i < (rollingMeanSkipNan (replaceZeroNan s) w).length := by
    simpa [rollingMeanSkipNan, List.length_ofFn] using hi'
  rw [avgLiqColumn, fillna0, getD_map_of_lt _ _ i hlen d none,
    rollingMeanSkipNan_getD _ w i hi' none, windowSlice_replaceZeroNan,
    filterMap_id_replace]
  by_cases h0 :
      ((windowSlice s w i).filter (fun x => decide (x ≠ 0))).length = 0
  · rw [if_pos h0, if_pos h0]
    rfl
  · rw [if_neg h0, if_neg h0]
    rfl

theorem bucketOf_eq_iff (delta t ts : Nat) (hd : 0 < delta) (ht : delta ∣ t) :
    bucketOf delta ts = t ↔ t ≤ ts ∧ ts < t + delta := by
  obtain ⟨k, rfl⟩ := ht
  rw [bucketOf]
  have hdm : delta * (ts / delta) + ts % delta = ts := Nat.div_add_mod ts delta
  have hmlt : ts % delta < delta := Nat.mod_lt ts hd
  constructor
  · intro h
    have hqk : ts / delta = k := Nat.eq_of_mul_eq_mul_left hd h
    constructor
    · calc delta * k = delta * (ts / delta) := by rw [hqk]
        _ ≤ delta * (ts / delta) + ts % delta := Nat.le_add_right _ _
        _ = ts := hdm
    · calc ts = delta * (ts / delta) + ts % delta := hdm.symm
        _ < delta * (ts / delta) + delta := by omega
        _ = delta * k + delta := by rw [hqk]
  · rintro ⟨hle, hlt⟩
    have hq : ts / delta = k := by
      refine Nat.div_eq_of_lt_le ?_ ?_
      · calc k * delta = delta * k := Nat.mul_comm k delta
          _ ≤ ts := hle
      · calc ts < delta * k + delta := hlt
          _ = (k + 1) * delta := by ring
    rw [hq]

theorem bucket_mem_iff (gridTs : List Nat) (delta ts : Nat) (hd : 0 < delta)
    (hal : ∀ t ∈ gridTs, delta ∣ t) :
    bucketOf delta ts ∈ gridTs ↔ ∃ t ∈ gridTs, t ≤ ts ∧ ts < t + delta := by
  constructor
  · intro h
    refine ⟨bucketOf delta ts, h, ?_⟩
    exact (bucketOf_eq_iff delta (bucketOf delta ts) ts hd
      ⟨ts / delta, rfl⟩).mp rfl
  · rintro ⟨t, htmem, hle, hlt⟩
    have hb : bucketOf delta ts = t :=
      (bucketOf_eq_iff delta t ts hd (hal t htmem)).mpr ⟨hle, hlt⟩
    rw [hb]
    exact htmem

theorem binnedSize_cons (e : LiqEvent) (es : List LiqEvent) (sd : Side)
    (delta t : Nat) :
    binnedSize (e :: es) sd delta t
      = (if e.side = sd ∧ bucketOf delta e.ts = t then e.size else 0)
        + binnedSize es sd delta t := by
  rw [binnedSize, List.filter_cons]
  by_cases h : e.side = sd ∧ bucketOf delta e.ts = t
  · rw [if_pos (by simp [h.1, h.2]), if_pos h, List.map_cons, List.sum_cons]
    rfl
  · rw [if_neg (by simpa using h), if_neg h, zero_add]
    rfl

theorem sum_map_add (l : List Nat) (f g : Nat → Rat) :
    (l.map (fun t => f t + g t)).sum = (l.map f).sum + (l.map g).sum := by
  induction l with
  | nil => simp
  | cons x xs ih =>
      simp only [List.map_cons, List.sum_cons, ih]
      ring

theorem sum_map_ite_eq (b : Nat) (q : Rat) :
    ∀ (l : List Nat), l.Nodup →
      (l.map (fun t => if b = t then q else 0)).sum = if b ∈ l then q else 0 := by
  intro l
  induction l with
  | nil =>
      intro _
      simp
  | cons x xs ih =>
      intro hnd
      rw [List.nodup_cons] at hnd
      obtain ⟨hx, hxs⟩ := hnd
      rw [List.map_cons, List.sum_cons, ih hxs]
      by_cases hb : b = x
      · subst hb
        have hbxs : b ∉ xs := hx
        simp [hbxs]
      · simp [hb, Ne.symm hb]

theorem mkRows_map_ts (grid : List Candle) (b s ab as vb vs : List Rat) :
    (mkRows grid b s ab as vb vs).map (fun r => r.ts)
      = grid.map (fun c => c.ts) := by
  rw [mkRows, List.map_ofFn]
  conv_rhs => rw [← List.ofFn_get grid, List.map_ofFn]
  rfl

theorem filter_length_ts (rows : List FeatureRow) (grid : List Candle)
    (p : Nat → Bool) (h : rows.map (fun r => r.ts) = grid.map (fun c => c.ts)) :
    (rows.filter (fun r => p r.ts)).length
      = (grid.filter (fun c => p c.ts)).length := by
  rw [← List.countP_eq_length_filter, ← List.countP_eq_length_filter]
  have h1 : List.countP (fun r => p r.ts) rows
      = List.countP p (rows.map (fun r => r.ts)) := by
    rw [List.countP_map]
    rfl
  have h2 : List.countP (fun c => p c.ts) grid
      = List.countP p (grid.map (fun c => c.ts)) := by
    rw [List.countP_map]
    rfl
  rw [h1, h2, h]

theorem prepareData_shape (grid : List Candle) (events : List LiqEvent)
    (tfMinutes startT endT aggMin days : Nat) :
    ∃ rows : List FeatureRow,
      rows.map (fun r => r.ts) = grid.map (fun c => c.ts) ∧
      prepareData grid events tfMinutes startT endT aggMin days
        = rows.filter (fun r => inRange startT endT r.ts) := by
  by_cases hg : grid.isEmpty
  · refine ⟨[], ?_, ?_⟩
    · have hnil : grid = [] := List.isEmpty_iff.mp hg
      simp [hnil]
    · simp [prepareData, hg]
  · by_cases he : events.isEmpty
    · exact ⟨mkRows grid [] [] [] [] [] [], mkRows_map_ts grid [] [] [] [] [] [],
        by simp [prepareData, hg, he]⟩
    · refine ⟨mkRows grid
        (grid.map (fun c => binnedSize events Side.buy tfMinutes c.ts))
        (grid.map (fun c => binnedSize events Side.sell tfMinutes c.ts))
        (rollingSum (grid.map (fun c => binnedSize events Side.buy tfMinutes c.ts))
          (dfAggWindow aggMin))
        (rollingSum (grid.map (fun c => binnedSize events Side.sell tfMinutes c.ts))
          (dfAggWindow aggMin))
        (avgLiqColumn (grid.map (fun c => binnedSize events Side.buy tfMinutes c.ts))
          (dfLookbackPeriods days tfMinutes))
        (avgLiqColumn (grid.map (fun c => binnedSize events Side.sell tfMinutes c.ts))
          (dfLookbackPeriods days tfMinutes)),
        mkRows_map_ts grid _ _ _ _ _ _, ?_⟩
      simp [prepareData, hg, he]

/-
Claim theorems.
-/

/-- C1 counterexample: the claim fails on `process_liquidation_data`, whose
long-window average is a plain rolling mean (no `replace(0, nan)`): on the
binned series `[0, 0, 10, 0, 20]` with a 5-candle lookback window the last
position is `30 / 5 = 6`, not the claimed zero-excluded mean `15`. -/
theorem avg_zero_exclusion_cex :
    (rollingMean [0, 0, 10, 0, 20] 5).getD 4 0 = 6 ∧ ((6 : Rat) ≠ 15) := by
  constructor
  · simp [rollingMean, windowSlice, List.ofFn_succ]
    norm_num
  · norm_num

/-- C1 (amended): in `prepare_data` and `prepare_strategy_data` - the
variants that apply `replace(0, nan)` before the rolling mean - the
long-window average at every position equals the arithmetic mean of only the
strictly-positive values of the trailing window, and `0` when the window has
no strictly-positive value. -/
theorem avg_liq_nonzero_mean (s : List Rat) (w i : Nat) (hi : i < s.length)
    (hnn : ∀ x ∈ s, 0 ≤ x) :
    (avgLiqColumn s w).getD i 1 =
      if ((windowSlice s w i).filter (fun x => decide (0 < x))).length = 0 then 0
      else ((windowSlice s w i).filter (fun x => decide (0 < x))).sum /
        (((windowSlice s w i).filter (fun x => decide (0 < x))).length : Rat) := by
  have hfeq : (windowSlice s w i).filter (fun x => decide (x ≠ 0))
      = (windowSlice s w i).filter (fun x => decide (0 < x)) := by
    refine List.filter_congr ?_
    intro x hx
    have h0 : 0 ≤ x := hnn x (mem_windowSlice hx)
    refine decide_eq_decide.mpr ?_
    constructor
    · intro h
      exact lt_of_le_of_ne h0 (Ne.symm h)
    · intro h
      exact (ne_of_gt h)
  rw [avgLiqColumn_getD s w i hi 1, hfeq]

/-- C1 witness: on the spec's own example `[0, 0, 10, 0, 20]` with a
5-candle window, the zero-excluding average variants produce `15` at the
last position. -/
theorem avg_liq_nonzero_mean_witness :
    (avgLiqColumn [0, 0, 10, 0, 20] 5).getD 4 1 = 15 := by
  have h := avg_liq_nonzero_mean [0, 0, 10, 0, 20] 5 4 (by norm_num)
    (by
      intro x hx
      fin_cases hx <;> norm_num)
  rw [h]
  simp [windowSlice]
  norm_num

/-- C2 counterexample: with `liquidation_aggregation_minutes = 5` on a
5-minute timeframe the claim's window is `max(1, 5 / 5) = 1` candle, giving
aggregated column `[1, 1]` on the binned series `[1, 1]`; `prepare_data`
instead uses the raw minute figure `5` as the candle window and produces
`[1, 2]`. -/
theorem agg_window_division_cex :
    ((prepareData [⟨0, 1, 1, 1, 1, 1⟩, ⟨5, 1, 1, 1, 1, 1⟩]
        [⟨1, Side.buy, 1⟩, ⟨6, Side.buy, 1⟩] 5 0 10 5 1).map
      (fun r => r.liqBuyAgg)) = [1, 2] ∧
    rollingSum [1, 1] (max 1 (5 / 5)) = [1, 1] ∧
    ([1, 2] : List Rat) ≠ [1, 1] := by
  refine ⟨?_, ?_, by simp⟩
  · simp [prepareData, mkRows, binnedSize, bucketOf, rollingSum, windowSlice,
      avgLiqColumn, fillna0, rollingMeanSkipNan, replaceZeroNan, dfAggWindow,
      dfLookbackPeriods, inRange, List.ofFn_succ, List.filter_cons]
    norm_num
  · simp [rollingSum, windowSlice, List.ofFn_succ]

/-- C2 (amended): only `process_liquidation_data` converts the aggregation
minutes to a candle count, as `max(1, floor(agg_minutes / tf_minutes))` with
truncating division; `prepare_data` uses the raw minute figure as the window
and `prepare_strategy_data` uses `max(1, agg_minutes)` without dividing. -/
theorem agg_window_variants (a t : Nat) (ht : 0 < t) :
    procAggWindow a t = max 1 (Nat.floor ((a : Rat) / (t : Rat))) ∧
    1 ≤ procAggWindow a t ∧ dfAggWindow a = a ∧ ctAggWindow a = max 1 a := by
  refine ⟨?_, le_max_left 1 _, rfl, rfl⟩
  rw [procAggWindow, Nat.floor_div_nat, Nat.floor_natCast]

/-- C2 witness: at `agg_minutes = 5`, `tf_minutes = 5` the processor window
is `1` while the `prepare_data` window is `5`. -/
theorem agg_window_variants_witness :
    procAggWindow 5 5 = 1 ∧ dfAggWindow 5 = 5 ∧ ctAggWindow 5 = 5 := by
  have h := agg_window_variants 5 5 (by norm_num)
  refine ⟨?_, h.2.2.1, ?_⟩
  · rw [h.1]
    norm_num
  · rw [h.2.2.2]
    decide

/-- C3 counterexample: for `lookback_days = 1` on a 7-minute timeframe the
code computes `int(1440 / 7) = 205` (truncation) while the claim's
`max(1, round(1440 / 7))` is `206`. -/
theorem lookback_round_cex :
    dfLookbackPeriods 1 7 = 205 ∧ specLookbackCandles 1 7 = 206 ∧
      ((205 : Int) ≠ 206) := by
  refine ⟨rfl, ?_, by norm_num⟩
  simp [specLookbackCandles]
  norm_num [round_eq]

/-- C3 (amended): the lookback conversion truncates the exact quotient
toward zero (it equals the floor of `days * 24 * 60 / tf_minutes`, not its
rounding); `prepare_strategy_data` and `process_liquidation_data` floor the
result at `1`, while `prepare_data` applies no floor. -/
theorem lookback_truncation (days t : Nat) (ht : 0 < t) :
    dfLookbackPeriods days t
      = Nat.floor (((days * 24 * 60 : Nat) : Rat) / (t : Rat)) ∧
    ctLookbackPeriods days t = max 1 (dfLookbackPeriods days t) ∧
    1 ≤ ctLookbackPeriods days t := by
  refine ⟨?_, rfl, le_max_left 1 _⟩
  rw [Nat.floor_div_nat, Nat.floor_natCast]
  rfl

/-- C3 witness: at `days = 1`, `tf_minutes = 7` the truncating conversion
gives `205` and the counter-trade variant `max(1, 205) = 205`. -/
theorem lookback_truncation_witness :
    dfLookbackPeriods 1 7 = Nat.floor (((1 * 24 * 60 : Nat) : Rat) / ((7 : Nat) : Rat)) ∧
    ctLookbackPeriods 1 7 = 205 := by
  have h := lookback_truncation 1 7 (by norm_num)
  refine ⟨h.1, ?_⟩
  rw [h.2.1]
  rfl

/-- C4: the derived rolling columns are total (same length as the binned
series, no missing sentinel), the pre-fill long-window mean is NaN exactly
on all-zero windows and the `fillna(0)` step resolves those positions to
`0`; moreover with an empty liquidation event set every one of the six
derived columns of the returned table is `0` at every row. -/
theorem avg_zero_fill_total (s : List Rat) (w : Nat) :
    (avgLiqColumn s w).length = s.length ∧
    (rollingSum s w).length = s.length ∧
    (∀ i, i < s.length →
      (((rollingMeanSkipNan (replaceZeroNan s) w).getD i (some 1) = none) ↔
        ∀ x ∈ windowSlice s w i, x = 0) ∧
      ((∀ x ∈ windowSlice s w i, x = 0) → (avgLiqColumn s w).getD i 1 = 0)) ∧
    (∀ (grid : List Candle) (tfMinutes startT endT aggMin days : Nat),
      ∀ r ∈ prepareData grid [] tfMinutes startT endT aggMin days,
        r.liqBuySize = 0 ∧ r.liqSellSize = 0 ∧ r.liqBuyAgg = 0 ∧
        r.liqSellAgg = 0 ∧ r.avgLiqBuy = 0 ∧ r.avgLiqSell = 0) := by
  refine ⟨?_, ?_, ?_, ?_⟩
  · simp [avgLiqColumn, fillna0, rollingMeanSkipNan, replaceZeroNan]
  · simp [rollingSum]
  · intro i hi
    have hi' : i < (replaceZeroNan s).length := by
      simpa [length_replaceZeroNan] using hi
    have hkey : (((windowSlice s w i).filter (fun x => decide (x ≠ 0))).length = 0)
        ↔ ∀ x ∈ windowSlice s w i, x = 0 := by
      rw [List.length_eq_zero, List.filter_eq_nil_iff]
      constructor
      · intro h x hx
        have hh := h x hx
        simpa using hh
      · intro h x hx
        simp [h x hx]
    constructor
    · rw [rollingMeanSkipNan_getD _ w i hi' (some 1),
        windowSlice_replaceZeroNan, filterMap_id_replace]
      constructor
      · intro hnone
        by_cases h0 :
            ((windowSlice s w i).filter (fun x => decide (x ≠ 0))).length = 0
        · exact hkey.mp h0
        · rw [if_neg h0] at hnone
          exact absurd hnone (by simp)
      · intro hz
        rw [if_pos (hkey.mpr hz)]
    · intro hz
      rw [avgLiqColumn_getD s w i hi 1, if_pos (hkey.mpr hz)]
  · intro grid tfMinutes startT endT aggMin days r hr
    rw [prepareData] at hr
    by_cases hg : grid.isEmpty
    · rw [if_pos hg] at hr
      simp at hr
    · rw [if_neg hg] at hr
      simp only [List.isEmpty_nil, ite_true] at hr
      have hmem : r ∈ mkRows grid [] [] [] [] [] [] :=
        (List.mem_filter.mp hr).1
      rw [mkRows, List.mem_ofFn] at hmem
      obtain ⟨j, hj⟩ := hmem
      rw [← hj]
      simp

/-- C4 witness: on the all-zero binned series `[0, 0, 0]` with a 5-candle
lookback window every average position is exactly `0`. -/
theorem avg_zero_fill_total_witness :
    (avgLiqColumn [0, 0, 0] 5).length = 3 ∧
    (avgLiqColumn [0, 0, 0] 5).getD 2 1 = 0 := by
  have h := avg_zero_fill_total [0, 0, 0] 5
  refine ⟨?_, ?_⟩
  · rw [h.1]
    rfl
  · exact (h.2.2.1 2 (by norm_num)).2 (by simp [windowSlice])

/-- C5: the short-window aggregated value at position `i` equals the sum of
the binned values at positions `i - w + 1 .. i`, clamped at the series
start (partial leading windows sum over the positions that exist). -/
theorem rolling_sum_trailing_window (s : List Rat) (w i : Nat) (hw : 1 ≤ w)
    (hi : i < s.length) :
    (rollingSum s w).getD i 0 = ∑ j ∈ Finset.Icc (i + 1 - w) i, s.getD j 0 := by
  rw [rollingSum, getD_ofFn _ i hi]
  show (windowSlice s w i).sum = _
  rw [sum_windowSlice s w i hi, ← Nat.Ico_succ_right]

/-- C5 witness: on the spec's example series `[1, 2, 3, 4, 5]` with window
`2` the last position sums positions `3..4`, and the whole aggregated
column is `[1, 3, 5, 7, 9]`. -/
theorem rolling_sum_trailing_window_witness :
    ((rollingSum [1, 2, 3, 4, 5] 2).getD 4 0
      = ∑ j ∈ Finset.Icc 3 4, ([1, 2, 3, 4, 5] : List Rat).getD j 0) ∧
    rollingSum [1, 2, 3, 4, 5] 2 = [1, 3, 5, 7, 9] := by
  constructor
  · exact rolling_sum_trailing_window [1, 2, 3, 4, 5] 2 4 (by norm_num) (by simp)
  · simp [rollingSum, windowSlice, List.ofFn_succ]
    norm_num

/-- C8 counterexample: the unparseable timeframe string "1w" does not make
`prepare_data` raise - its parsing step silently keeps the initial default
of one minute (`some 1`, not the `none` that models an exception) - even
though `_timeframe_to_minutes` would raise a `ValueError` on the same
string. -/
theorem timeframe_default_cex :
    dfTfMinutes ['1', 'w'] = some 1 ∧ dfTfMinutes ['1', 'w'] ≠ none ∧
    procTfMinutes ['1', 'w']
      = Except.error "Unsupported timeframe string format" := by
  refine ⟨by decide, by decide, by decide⟩

/-- C8 (amended): for a timeframe string containing none of `m`, `h`, `d`,
only `_timeframe_to_minutes` (used by `process_liquidation_data`, after
binning) raises a `ValueError`; `prepare_data` silently substitutes the
1-minute default duration instead of raising. -/
theorem timeframe_unparseable (tf : List Char)
    (hm : tf.contains 'm' = false) (hh : tf.contains 'h' = false)
    (hd : tf.contains 'd' = false) (hem : tf.getLast? ≠ some 'm')
    (heh : tf.getLast? ≠ some 'h') (hed : tf.getLast? ≠ some 'd') :
    procTfMinutes tf = Except.error "Unsupported timeframe string format" ∧
    dfTfMinutes tf = some 1 := by
  constructor
  · rw [procTfMinutes, hm, hh, hd]
    simp
  · rw [dfTfMinutes, if_neg hem, if_neg heh, if_neg hed]

/-- C8 witness: instantiation at the concrete unparseable string "1w". -/
theorem timeframe_unparseable_witness :
    procTfMinutes ['1', 'w'] = Except.error "Unsupported timeframe string format" ∧
    dfTfMinutes ['1', 'w'] = some 1 :=
  timeframe_unparseable ['1', 'w'] (by decide) (by decide) (by decide)
    (by decide) (by decide) (by decide)

/-- C10: the feature preparation is a pure function of its arguments - two
invocations on equal inputs return equal output tables. -/
theorem prepare_data_deterministic (g1 g2 : List Candle)
    (e1 e2 : List LiqEvent) (t1 t2 s1 s2 n1 n2 a1 a2 d1 d2 : Nat)
    (hg : g1 = g2) (he : e1 = e2) (ht : t1 = t2) (hs : s1 = s2)
    (hn : n1 = n2) (ha : a1 = a2) (hd : d1 = d2) :
    prepareData g1 e1 t1 s1 n1 a1 d1 = prepareData g2 e2 t2 s2 n2 a2 d2 := by
  subst hg
  subst he
  subst ht
  subst hs
  subst hn
  subst ha
  subst hd
  rfl

/-- C10 witness: two invocations on a concrete identical input coincide. -/
theorem prepare_data_deterministic_witness :
    prepareData [⟨0, 1, 1, 1, 1, 1⟩] [⟨0, Side.buy, 2⟩] 5 0 5 5 1
      = prepareData [⟨0, 1, 1, 1, 1, 1⟩] [⟨0, Side.buy, 2⟩] 5 0 5 5 1 :=
  prepare_data_deterministic _ _ _ _ _ _ _ _ _ _ _ _ _ _
    rfl rfl rfl rfl rfl rfl rfl

/-- C6: for a candle open `t` aligned to the bucket width, the binned value
equals the sum of the sizes of exactly the events of that side whose
timestamp lies in the left-closed right-open interval
`[t, t + timeframe_duration)`, and a candle with no matching events holds
`0`. -/
theorem binned_size_interval (events : List LiqEvent) (sd : Side)
    (delta t : Nat) (hd : 0 < delta) (ht : delta ∣ t) :
    binnedSize events sd delta t
      = ((events.filter (fun e => decide (e.side = sd)
          && inRange t (t + delta) e.ts)).map (fun e => e.size)).sum ∧
    ((∀ e ∈ events, ¬(e.side = sd ∧ t ≤ e.ts ∧ e.ts < t + delta)) →
      binnedSize events sd delta t = 0) := by
  have hpt : ∀ e ∈ events,
      (decide (e.side = sd) && decide (bucketOf delta e.ts = t))
        = (decide (e.side = sd) && inRange t (t + delta) e.ts) := by
    intro e _
    by_cases hs : e.side = sd
    · have h1 : decide (e.side = sd) = true := by simp [hs]
      rw [h1, Bool.true_and, Bool.true_and, inRange, ← Bool.decide_and]
      exact decide_eq_decide.mpr (bucketOf_eq_iff delta t e.ts hd ht)
    · have h1 : decide (e.side = sd) = false := by simp [hs]
      rw [h1, Bool.false_and, Bool.false_and]
  have heq : binnedSize events sd delta t
      = ((events.filter (fun e => decide (e.side = sd)
          && inRange t (t + delta) e.ts)).map (fun e => e.size)).sum := by
    rw [binnedSize, List.filter_congr hpt]
  refine ⟨heq, fun hnone => ?_⟩
  rw [heq]
  have hnil : events.filter (fun e => decide (e.side = sd)
      && inRange t (t + delta) e.ts) = [] := by
    rw [List.filter_eq_nil_iff]
    intro e he hcon
    rw [Bool.and_eq_true, decide_eq_true_eq] at hcon
    obtain ⟨hside, hrange⟩ := hcon
    rw [inRange, Bool.and_eq_true, decide_eq_true_eq, decide_eq_true_eq] at hrange
    exact hnone e he ⟨hside, hrange.1, hrange.2⟩
  rw [hnil]
  rfl

/-- C6 witness: concrete aligned bucket `[10, 15)` with width 5 collects
exactly the BUY event at minute 12 (size 5). -/
theorem binned_size_interval_witness :
    (binnedSize [⟨3, Side.buy, 2⟩, ⟨7, Side.sell, 4⟩, ⟨12, Side.buy, 5⟩]
        Side.buy 5 10
      = ((([⟨3, Side.buy, 2⟩, ⟨7, Side.sell, 4⟩, ⟨12, Side.buy, 5⟩] :
          List LiqEvent).filter
          (fun e => decide (e.side = Side.buy) && inRange 10 (10 + 5) e.ts)).map
        (fun e => e.size)).sum) ∧
    binnedSize [⟨3, Side.buy, 2⟩, ⟨7, Side.sell, 4⟩, ⟨12, Side.buy, 5⟩]
      Side.buy 5 10 = 5 := by
  have h := binned_size_interval
    [⟨3, Side.buy, 2⟩, ⟨7, Side.sell, 4⟩, ⟨12, Side.buy, 5⟩]
    Side.buy 5 10 (by norm_num) (by norm_num)
  refine ⟨h.1, ?_⟩
  simp [binnedSize, bucketOf, List.filter_cons]

/-- C7: the output of `prepare_data` is trimmed to `[start_dt, end_dt)` -
every returned row's timestamp is in range, the row count equals exactly
the number of candles of the fetched grid falling in that range, and the
fetch itself starts `average_lookback_period_days` days before `start_dt`. -/
theorem prepare_data_trim (grid : List Candle) (events : List LiqEvent)
    (tfMinutes startT endT aggMin days : Nat) :
    (∀ r ∈ prepareData grid events tfMinutes startT endT aggMin days,
      startT ≤ r.ts ∧ r.ts < endT) ∧
    (prepareData grid events tfMinutes startT endT aggMin days).length
      = (grid.filter (fun c => inRange startT endT c.ts)).length ∧
    fetchStart startT days = (startT : Int) - (days : Int) * 24 * 60 := by
  obtain ⟨rows, hmap, heq⟩ :=
    prepareData_shape grid events tfMinutes startT endT aggMin days
  refine ⟨?_, ?_, rfl⟩
  · intro r hr
    rw [heq] at hr
    have hp := (List.mem_filter.mp hr).2
    rw [inRange, Bool.and_eq_true, decide_eq_true_eq, decide_eq_true_eq] at hp
    exact hp
  · rw [heq]
    exact filter_length_ts rows grid (inRange startT endT) hmap

/-- C7 witness: concrete request over the grid {0, 5} with range [5, 10)
returns exactly the one in-range candle row. -/
theorem prepare_data_trim_witness :
    (∀ r ∈ prepareData [⟨0, 1, 1, 1, 1, 1⟩, ⟨5, 1, 1, 1, 1, 1⟩]
        [⟨1, Side.buy, 1⟩] 5 5 10 5 1, 5 ≤ r.ts ∧ r.ts < 10) ∧
    (prepareData [⟨0, 1, 1, 1, 1, 1⟩, ⟨5, 1, 1, 1, 1, 1⟩]
        [⟨1, Side.buy, 1⟩] 5 5 10 5 1).length
      = (([⟨0, 1, 1, 1, 1, 1⟩, ⟨5, 1, 1, 1, 1, 1⟩] : List Candle).filter
          (fun c => inRange 5 10 c.ts)).length ∧
    fetchStart 5 1 = ((5 : Nat) : Int) - ((1 : Nat) : Int) * 24 * 60 :=
  prepare_data_trim [⟨0, 1, 1, 1, 1, 1⟩, ⟨5, 1, 1, 1, 1, 1⟩]
    [⟨1, Side.buy, 1⟩] 5 5 10 5 1

/-- C9 counterexample: with candle opens {0, 10} (5-minute candles with a
gap at 5) and a single BUY event at minute 6 of size 7, the summed binned
column is `0`, while the events inside the grid's covered time span
`[0, 10 + 5)` total `7`: an event falling in an interior gap is silently
dropped by the binning-and-join step. -/
theorem conservation_span_cex :
    totalBinned [0, 10] [⟨6, Side.buy, 7⟩] Side.buy 5 = 0 ∧
    ((([⟨6, Side.buy, 7⟩] : List LiqEvent).filter
        (fun e => decide (e.side = Side.buy) && inRange 0 (10 + 5) e.ts)).map
      (fun e => e.size)).sum = 7 ∧
    ((0 : Rat) ≠ 7) := by
  refine ⟨?_, ?_, by norm_num⟩
  · simp [totalBinned, binnedSize, bucketOf]
  · simp [inRange, List.filter_cons]

/-- C9 (amended): conservation holds with the covered span read as the
union of the candles' own intervals: over an aligned, duplicate-free candle
grid, the sum of the binned column equals the sum of the sizes of exactly
the events of that side whose timestamp falls inside some candle's interval
`[t, t + timeframe_duration)`; events in interior gaps or outside the grid
are excluded. -/
theorem liq_conservation (gridTs : List Nat) (events : List LiqEvent)
    (sd : Side) (delta : Nat) (hd : 0 < delta)
    (hal : ∀ t ∈ gridTs, delta ∣ t) (hnd : gridTs.Nodup) :
    totalBinned gridTs events sd delta
      = ((events.filter (fun e => decide (e.side = sd)
          && gridTs.any (fun t => inRange t (t + delta) e.ts))).map
        (fun e => e.size)).sum := by
  induction events with
  | nil => simp [totalBinned, binnedSize]
  | cons e es ih =>
      have hcons : totalBinned gridTs (e :: es) sd delta
          = (gridTs.map (fun t =>
              if e.side = sd ∧ bucketOf delta e.ts = t then e.size else 0)).sum
            + totalBinned gridTs es sd delta := by
        rw [totalBinned, totalBinned]
        simp only [binnedSize_cons]
        rw [sum_map_add]
      rw [hcons, ih, List.filter_cons]
      have hanyiff : (gridTs.any (fun t => inRange t (t + delta) e.ts) = true)
          ↔ bucketOf delta e.ts ∈ gridTs := by
        rw [List.any_eq_true, bucket_mem_iff gridTs delta e.ts hd hal]
        constructor
        · rintro ⟨t, htm, hp⟩
          rw [inRange, Bool.and_eq_true, decide_eq_true_eq,
            decide_eq_true_eq] at hp
          exact ⟨t, htm, hp.1, hp.2⟩
        · rintro ⟨t, htm, h1, h2⟩
          refine ⟨t, htm, ?_⟩
          rw [inRange]
          simp [h1, h2]
      by_cases hs : e.side = sd
      · have hcong : ∀ t ∈ gridTs,
            (if e.side = sd ∧ bucketOf delta e.ts = t then e.size else 0)
              = (if bucketOf delta e.ts = t then e.size else 0) := by
          intro t _
          simp [hs]
        by_cases hm : bucketOf delta e.ts ∈ gridTs
        · have hsum : (gridTs.map (fun t =>
              if e.side = sd ∧ bucketOf delta e.ts = t then e.size
              else 0)).sum = e.size := by
            rw [List.map_congr_left hcong,
              sum_map_ite_eq (bucketOf delta e.ts) e.size gridTs hnd,
              if_pos hm]
          have hpred : (decide (e.side = sd)
              && gridTs.any (fun t => inRange t (t + delta) e.ts)) = true := by
            rw [Bool.and_eq_true]
            exact ⟨by simp [hs], hanyiff.mpr hm⟩
          rw [if_pos hpred, List.map_cons, List.sum_cons, hsum]
        · have hsum0 : (gridTs.map (fun t =>
              if e.side = sd ∧ bucketOf delta e.ts = t then e.size
              else 0)).sum = 0 := by
            rw [List.map_congr_left hcong,
              sum_map_ite_eq (bucketOf delta e.ts) e.size gridTs hnd,
              if_neg hm]
          have hany0 : gridTs.any (fun t => inRange t (t + delta) e.ts)
              = false := by
            rw [Bool.eq_false_iff]
            intro hcon
            exact hm (hanyiff.mp hcon)
          rw [if_neg (by
            rw [hany0, Bool.and_false]
            exact Bool.false_ne_true), hsum0, zero_add]
      · have hcong0 : ∀ t ∈ gridTs,
            (if e.side = sd ∧ bucketOf delta e.ts = t then e.size else 0)
              = 0 := by
          intro t _
          simp [hs]
        have hsum0 : (gridTs.map (fun t =>
            if e.side = sd ∧ bucketOf delta e.ts = t then e.size
            else 0)).sum = 0 := by
          rw [List.map_congr_left hcong0]
          exact List.sum_map_zero
        have hdec : decide (e.side = sd) = false := by simp [hs]
        rw [if_neg (by
          rw [hdec, Bool.false_and]
          exact Bool.false_ne_true), hsum0, zero_add]

/-- C9 witness: aligned gappy grid {0, 10}, width 5: the BUY event at
minute 11 (size 7) is covered by the candle interval `[10, 15)` and
conserved, the BUY event at minute 6 (size 3) is in the gap and excluded;
both sides of the conservation identity evaluate to `7`. -/
theorem liq_conservation_witness :
    (totalBinned [0, 10] [⟨11, Side.buy, 7⟩, ⟨6, Side.buy, 3⟩] Side.buy 5
      = ((([⟨11, Side.buy, 7⟩, ⟨6, Side.buy, 3⟩] : List LiqEvent).filter
          (fun e => decide (e.side = Side.buy)
            && ([0, 10] : List Nat).any (fun t => inRange t (t + 5) e.ts))).map
        (fun e => e.size)).sum) ∧
    totalBinned [0, 10] [⟨11, Side.buy, 7⟩, ⟨6, Side.buy, 3⟩] Side.buy 5
      = 7 := by
  have h := liq_conservation [0, 10] [⟨11, Side.buy, 7⟩, ⟨6, Side.buy, 3⟩]
    Side.buy 5 (by norm_num) (by decide) (by decide)
  refine ⟨h, ?_⟩
  simp [totalBinned, binnedSize, bucketOf, List.filter_cons]

end Liqui
